import Mathlib

/-!
# Verification of the go-pmem persistent-memory crash-logging core

A shallow embedding, in Lean 4, of the runtime code that makes persistent-memory
allocation crash-consistent: the region manager (`PmallocInit`), the span
allocation log (`logSpanAlloc` / `logSpanFree` / `spanLogValue` / `spanLogAddr`),
the heap pointer-bitmap log (`logHeapBits` / `clearHeapBits`), and the per-arena
undo log (`logEntry` / `revertLog` / `resetLog` / `commitLog`).

Go machine integers are embedded as `Nat` (for `uintptr`/`uint32`/unsigned
quantities, with an explicit `% 2 ^ 32` where the code truncates to `uint32`)
and `Int` (for Go `int`).  Memory regions touched by the logging routines are
embedded as explicit functions from addresses to stored values, updated with
`Function.update`.  Fallible operations (the code's `throw`) return `Option`.
-/

namespace GoPmem

/-! ## Constants

Constants from the source.  `pageShift`/`pageSize`/`maxSmallSize` are the Go
runtime's values on linux/amd64 (`_PageShift = 13`, `maxSmallSize = 32768`),
referenced but not defined in the files under verification. -/

def isNotPersistent : Nat := 0

def isPersistent : Nat := 1

/-- Bytes used in the span bitmap to log one page (one 32-bit word). -/
def logBytesPerPage : Nat := 4

/-- Magic constant written to the first 8 bytes of the region header. -/
def pmemHdrMagic : Int := 0xABCDCBA

/-- Region header bytes: 8-byte magic plus 8-byte recorded region size. -/
def pmemHdrSize : Nat := 16

/-- Required granularity of the persistent region: 64 MiB. -/
def pmemInitSize : Int := 64 * 1024 * 1024

def pageShift : Nat := 13

def pageSize : Nat := 8192

def maxSmallSize : Nat := 32768

/-- Heap type-bitmap bytes needed per page: 1 byte records 32 bytes of data. -/
def heapBytesPerPage : Nat := pageSize / 32

/-- Modelled from the spec: the granule-to-log-byte ratio of the type bitmap
(one bitmap byte per 32 data bytes); the constant is referenced but not
defined in the source files. -/
def bytesPerBitmapByte : Nat := 32

/-- Modelled from the spec: the span bitmap uses one 32-bit word (4 bytes) per
page; the constant is referenced but not defined in the source files. -/
def spanBytesPerPage : Nat := 4

/-- Modelled from the spec: the common region header occupying the start of the
first arena (8-byte magic plus 8-byte size); referenced but not defined in the
source files. -/
def pmemHeaderSize : Nat := 16

/-- Modelled from the spec: the fixed per-arena header size (including the
undo-log slots).  The exact value is absent from the source files and none of
the verified claims depend on it; any fixed constant works. -/
def pArenaHeaderSize : Nat := 96

/-- Size in bytes of a Go `int`. -/
def intSize : Nat := 8

/-- The maximum number of entries that can be logged in the arena header. -/
def maxLogEntries : Nat := 2

/-- Truncation modulus for a Go `uint32`. -/
def uint32Mod : Nat := 2 ^ 32

/-! ## Data model -/

/-- The slice of a persistent arena's metadata consulted by the logging
routines.  `paAddr` is the address of the arena header itself
(`unsafe.Pointer(pa)`), `mapAddr` the arena's map address, `offset` /
`fileOffset` its offsets, and `mdSize` / `allocSize` the two components
returned by `pa.layout()`. -/
structure pArena where
  paAddr : Nat
  mapAddr : Nat
  offset : Nat
  fileOffset : Nat
  mdSize : Nat
  allocSize : Nat
  deriving DecidableEq

/-- Modelled from the spec: `layout()` is a pure function of the arena
returning `(headerSize, usableAllocationSize)`; its body is absent from the
source files, so the two components are carried as arena fields. -/
def pArena.layout (pa : pArena) : Nat × Nat := (pa.mdSize, pa.allocSize)

/-- The fields of the allocator's `mspan` consulted by the logging routines. -/
structure mspan where
  base : Nat
  elemsize : Nat
  spanclass : Nat
  needzero : Nat
  memtype : Nat
  typIndex : Int
  pArena : GoPmem.pArena
  deriving DecidableEq

def bool2int (b : Bool) : Nat := if b then 1 else 0

/-! ## Span allocation log -/

/-- The value logged for the allocation of span `s`: for a small span,
`s.spc << 2 | optTypeLog << 1 | s.needzero`; for a large span,
`(66 + s.npages - 4) << 3 | s.spc << 2 | s.needzero`, truncated to `uint32`. -/
def spanLogValue (s : mspan) : Nat :=
  (if s.elemsize > maxSmallSize then
    ((66 + (s.elemsize >>> pageShift) - 4) <<< 3) ||| (s.spanclass <<< 2) ||| s.needzero
  else
    ((s.spanclass <<< 2) ||| (bool2int (s.typIndex != 0) <<< 1) ||| s.needzero)) % uint32Mod

/-- The address at which span `s`'s allocation is logged: the span-bitmap word
for the span's first page, computed from the owning arena's layout. -/
def spanLogAddr (s : mspan) : Nat :=
  let pa := s.pArena
  let arenaStart := pa.mapAddr + pa.layout.1
  let offset := if pa.fileOffset = 0 then pmemHeaderSize else 0
  let spanBitmap := pa.mapAddr + offset + pArenaHeaderSize + pa.layout.2 / bytesPerBitmapByte
  let pageOffset := (s.base - arenaStart) >>> pageShift
  spanBitmap + pageOffset * spanBytesPerPage

/-- `logSpanAlloc` over the span-bitmap memory `mem` (a map from addresses to
stored 32-bit words).  `none` models `throw`.  On success it returns the new
memory together with a flag recording whether a store was performed (`false`
when the routine returned early leaving the slot untouched). -/
def logSpanAlloc (mem : Nat → Nat) (s : mspan) : Option ((Nat → Nat) × Bool) :=
  if s.memtype = isNotPersistent then none
  else if mem (spanLogAddr s) ≠ 0 then
    if mem (spanLogAddr s) >>> 2 ≠ spanLogValue s >>> 2 then none
    else if mem (spanLogAddr s) &&& 3 = spanLogValue s &&& 3 then some (mem, false)
    else some (Function.update mem (spanLogAddr s) (spanLogValue s), true)
  else some (Function.update mem (spanLogAddr s) (spanLogValue s), true)

/-- `logSpanFree`: atomically zero the span's bitmap word. -/
def logSpanFree (mem : Nat → Nat) (s : mspan) : Option (Nat → Nat) :=
  if s.memtype = isNotPersistent then none
  else some (Function.update mem (spanLogAddr s) 0)

/-- The alloc → free → alloc sequence on one slot, propagating failure. -/
def allocFreeAlloc (mem : Nat → Nat) (s s2 : mspan) : Option (Nat → Nat) :=
  match logSpanAlloc mem s with
  | none => none
  | some (m1, _) =>
    match logSpanFree m1 s with
    | none => none
    | some m2 =>
      match logSpanAlloc m2 s2 with
      | none => none
      | some (m3, _) => some m3

/-! ## Arithmetic helpers -/

theorem lor_eq_add_of_mod (k a b : Nat) (ha : a % 2 ^ k = 0) (hb : b < 2 ^ k) :
    a ||| b = a + b := by
  obtain ⟨q, rfl⟩ : ∃ q, a = 2 ^ k * q :=
    ⟨a / 2 ^ k, by rw [Nat.mul_div_cancel' (Nat.dvd_of_mod_eq_zero ha)]⟩
  exact (Nat.mul_add_lt_is_or hb q).symm

theorem bool2int_lt_two (b : Bool) : bool2int b < 2 := by
  cases b <;> simp [bool2int]

/-- Arithmetic form of `spanLogValue` for a small span. -/
theorem spanLogValue_small (s : mspan) (hs : ¬ s.elemsize > maxSmallSize)
    (hnz : s.needzero < 2) :
    spanLogValue s =
      (4 * s.spanclass + 2 * bool2int (s.typIndex != 0) + s.needzero) % uint32Mod := by
  have hopt := bool2int_lt_two (s.typIndex != 0)
  unfold spanLogValue
  rw [if_neg hs]
  simp only [Nat.shiftLeft_eq]
  rw [lor_eq_add_of_mod 2 (s.spanclass * 2 ^ 2) (bool2int (s.typIndex != 0) * 2 ^ 1)
      (by omega) (by omega)]
  rw [lor_eq_add_of_mod 1
      (s.spanclass * 2 ^ 2 + bool2int (s.typIndex != 0) * 2 ^ 1) s.needzero
      (by omega) (by omega)]
  ring_nf

/-- Arithmetic form of `spanLogValue` for a large span (whose span class is
0 or 1, see the comment on `logBytesPerPage` in the source). -/
theorem spanLogValue_large (s : mspan) (hs : s.elemsize > maxSmallSize)
    (hnz : s.needzero < 2) (hspc : s.spanclass < 2) :
    spanLogValue s =
      ((62 + s.elemsize >>> pageShift) * 8 + 4 * s.spanclass + s.needzero) % uint32Mod := by
  unfold spanLogValue
  rw [if_pos hs]
  generalize s.elemsize >>> pageShift = np
  simp only [Nat.shiftLeft_eq]
  rw [lor_eq_add_of_mod 3 ((66 + np - 4) * 2 ^ 3)
      (s.spanclass * 2 ^ 2) (by omega) (by omega)]
  rw [lor_eq_add_of_mod 1
      ((66 + np - 4) * 2 ^ 3 + s.spanclass * 2 ^ 2) s.needzero
      (by omega) (by omega)]
  have h62 : 66 + np - 4 = 62 + np := by omega
  rw [h62]
  ring_nf

/-! ## Claim C1 -/

/-- C1: when `logSpanAlloc` finds a non-zero word already stored in the span's
log slot, it is fatal if the stored word's bits above the needs-zero bit and
the optimized-type flag (bits 2..31) differ from the packed value's, and when
those upper bits match and the low two bits are also unchanged the routine
returns without performing any store. -/
theorem logSpanAlloc_reuse (mem : Nat → Nat) (s : mspan)
    (hp : s.memtype ≠ isNotPersistent)
    (hnz : mem (spanLogAddr s) ≠ 0) :
    (mem (spanLogAddr s) >>> 2 ≠ spanLogValue s >>> 2 → logSpanAlloc mem s = none) ∧
    (mem (spanLogAddr s) >>> 2 = spanLogValue s >>> 2 →
      mem (spanLogAddr s) &&& 3 = spanLogValue s &&& 3 →
      logSpanAlloc mem s = some (mem, false)) := by
  unfold logSpanAlloc
  rw [if_neg hp, if_pos hnz]
  constructor
  · intro hdiff
    rw [if_pos hdiff]
  · intro hupper hlow
    rw [if_neg (by simp [hupper]), if_pos hlow]

/-- A concrete arena and concrete spans used by the witnesses below. -/
def pa0 : pArena := ⟨80, 0, 0, 0, 0, 0⟩

def spanC1 : mspan := ⟨0, 32, 4, 0, isPersistent, 0, pa0⟩

theorem logSpanAlloc_reuse_witness :
    logSpanAlloc (fun _ => 20) spanC1 = none ∧
    logSpanAlloc (fun _ => 16) spanC1 = some ((fun _ => 16), false) :=
  ⟨(logSpanAlloc_reuse (fun _ => 20) spanC1 (by decide) (by decide)).1 (by decide),
   (logSpanAlloc_reuse (fun _ => 16) spanC1 (by decide) (by decide)).2 (by decide) (by decide)⟩

/-! ## Claim C2 -/

theorem spanLogAddr_congr (s s2 : mspan) (hb : s2.base = s.base)
    (hpa : s2.pArena = s.pArena) : spanLogAddr s2 = spanLogAddr s := by
  unfold spanLogAddr
  rw [hb, hpa]

/-- Concrete spans differing only in `typIndex` (the optimized-type flag). -/
def spanC2a : mspan := ⟨0, 32, 4, 0, isPersistent, 0, pa0⟩

def spanC2b : mspan := ⟨0, 32, 4, 0, isPersistent, 1, pa0⟩

/-- C2 counterexample: `logSpanAlloc` → `logSpanFree` → `logSpanAlloc` with the
same base address and span class can leave an entry (18) that differs from the
first entry (16) in the optimized-type flag (bit 1), not only in the needs-zero
bit (bit 0): the two entries already disagree after dropping bit 0. -/
theorem allocFreeAlloc_not_needzero_only :
    (allocFreeAlloc (fun _ => 0) spanC2a spanC2b).map (fun m => m (spanLogAddr spanC2a))
      = some 18 ∧
    (logSpanAlloc (fun _ => 0) spanC2a).map (fun p => p.1 (spanLogAddr spanC2a))
      = some 16 ∧
    (18 : Nat) >>> 1 ≠ (16 : Nat) >>> 1 := by
  refine ⟨by decide, by decide, by decide⟩

/-- C2 (amended): `logSpanAlloc(s)` → `logSpanFree(s)` → `logSpanAlloc(s2)`,
where `s2` has the same base address, arena, span class and element size as
`s`, leaves a span-log entry identical to the one produced by the first
`logSpanAlloc` except possibly in the needs-zero bit and the optimized-type
flag (the two entries agree on all bits above bit 1). -/
theorem allocFreeAlloc_entry (mem : Nat → Nat) (s s2 : mspan)
    (hp : s.memtype ≠ isNotPersistent) (hp2 : s2.memtype ≠ isNotPersistent)
    (hbase : s2.base = s.base) (hpa : s2.pArena = s.pArena)
    (hsc : s2.spanclass = s.spanclass) (hes : s2.elemsize = s.elemsize)
    (hnz : s.needzero < 2) (hnz2 : s2.needzero < 2)
    (hlg : maxSmallSize < s.elemsize → s.spanclass < 2)
    (hfresh : mem (spanLogAddr s) = 0) :
    (allocFreeAlloc mem s s2).isSome = true ∧
    (allocFreeAlloc mem s s2).map (fun m => m (spanLogAddr s) >>> 2)
      = (logSpanAlloc mem s).map (fun p => p.1 (spanLogAddr s) >>> 2) := by
  have haddr : spanLogAddr s2 = spanLogAddr s := spanLogAddr_congr s s2 hbase hpa
  have h1 : logSpanAlloc mem s
      = some (Function.update mem (spanLogAddr s) (spanLogValue s), true) := by
    unfold logSpanAlloc
    rw [if_neg hp, if_neg (by simp [hfresh])]
  have h2 : logSpanFree (Function.update mem (spanLogAddr s) (spanLogValue s)) s
      = some (Function.update (Function.update mem (spanLogAddr s) (spanLogValue s))
          (spanLogAddr s) 0) := by
    unfold logSpanFree
    rw [if_neg hp]
  have h3 : logSpanAlloc
      (Function.update (Function.update mem (spanLogAddr s) (spanLogValue s))
        (spanLogAddr s) 0) s2
      = some (Function.update
          (Function.update (Function.update mem (spanLogAddr s) (spanLogValue s))
            (spanLogAddr s) 0) (spanLogAddr s2) (spanLogValue s2), true) := by
    unfold logSpanAlloc
    rw [if_neg hp2, if_neg (by rw [haddr]; simp)]
  have hseq : allocFreeAlloc mem s s2
      = some (Function.update
          (Function.update (Function.update mem (spanLogAddr s) (spanLogValue s))
            (spanLogAddr s) 0) (spanLogAddr s2) (spanLogValue s2)) := by
    simp only [allocFreeAlloc, h1, h2, h3]
  refine ⟨by rw [hseq]; rfl, ?_⟩
  rw [hseq, h1]
  simp only [Option.map_some', haddr, Function.update_same]
  refine congrArg some ?_
  by_cases hL : maxSmallSize < s.elemsize
  · have hL2 : maxSmallSize < s2.elemsize := by rw [hes]; exact hL
    rw [spanLogValue_large s hL hnz (hlg hL),
        spanLogValue_large s2 hL2 hnz2 (by rw [hsc]; exact hlg hL), hes, hsc]
    simp only [Nat.shiftRight_eq_div_pow]
    generalize s.elemsize >>> pageShift = np
    unfold uint32Mod
    omega
  · have hL2 : ¬ s2.elemsize > maxSmallSize := by rw [hes]; exact hL
    rw [spanLogValue_small s hL hnz, spanLogValue_small s2 hL2 hnz2, hsc]
    simp only [Nat.shiftRight_eq_div_pow]
    have ho1 := bool2int_lt_two (s.typIndex != 0)
    have ho2 := bool2int_lt_two (s2.typIndex != 0)
    unfold uint32Mod
    omega

theorem allocFreeAlloc_entry_witness :
    (allocFreeAlloc (fun _ => 0) spanC2a spanC2a).isSome = true ∧
    (allocFreeAlloc (fun _ => 0) spanC2a spanC2a).map
        (fun m => m (spanLogAddr spanC2a) >>> 2)
      = (logSpanAlloc (fun _ => 0) spanC2a).map
          (fun p => p.1 (spanLogAddr spanC2a) >>> 2) :=
  allocFreeAlloc_entry (fun _ => 0) spanC2a spanC2a (by decide) (by decide) rfl rfl rfl rfl
    (by decide) (by decide) (by decide) (by decide)

/-! ## Claim C10 -/

/-- A large persistent span of `2 ^ 29 - 62` pages (element size
`(2 ^ 29 - 62) * 8192`), span class 0 and needs-zero 0. -/
def spanC10 : mspan := ⟨0, 4398046003200, 0, 0, isPersistent, 0, pa0⟩

/-- C10 counterexample: a large span occupying at least 5 pages for which
`spanLogValue` returns 0: the packed value `(66 + npages - 4) << 3` equals
`2 ^ 32` and truncates to zero in 32 bits, so this logged allocation entry is
the zero value that `logSpanFree` stores to mean unallocated. -/
theorem spanLogValue_zero_counterexample :
    maxSmallSize < spanC10.elemsize ∧
    5 ≤ spanC10.elemsize >>> pageShift ∧
    spanC10.memtype = isPersistent ∧
    spanLogValue spanC10 = 0 := by
  refine ⟨by decide, by decide, by decide, by decide⟩

/-- C10 (amended): for every span accepted by `logSpanAlloc` — small spans
with span class at least 4, and large spans occupying at least 5 pages —
`spanLogValue` returns a non-zero 32-bit value, provided a large span's page
count is at most `2 ^ 29 - 63` (beyond that the packed value can wrap to 0 in
32 bits); such a logged entry is never confused with the zero that
`logSpanFree` stores to mean unallocated. -/
theorem spanLogValue_ne_zero (s : mspan) (hnz : s.needzero < 2)
    (hspc8 : s.spanclass < 256)
    (hsmall : ¬ s.elemsize > maxSmallSize → 4 ≤ s.spanclass)
    (hlarge : s.elemsize > maxSmallSize →
      s.spanclass < 2 ∧ 5 ≤ s.elemsize >>> pageShift ∧
        s.elemsize >>> pageShift ≤ 2 ^ 29 - 63) :
    spanLogValue s ≠ 0 := by
  by_cases hL : s.elemsize > maxSmallSize
  · obtain ⟨h1, h2, h3⟩ := hlarge hL
    rw [spanLogValue_large s hL hnz h1]
    generalize hq : s.elemsize >>> pageShift = np at h2 h3
    unfold uint32Mod
    omega
  · have h4 := hsmall hL
    rw [spanLogValue_small s hL hnz]
    have ho := bool2int_lt_two (s.typIndex != 0)
    unfold uint32Mod
    omega

theorem spanLogValue_ne_zero_witness : spanLogValue spanC1 ≠ 0 :=
  spanLogValue_ne_zero spanC1 (by decide) (by decide) (by decide) (by decide)

/-! ## Region manager (`PmallocInit`)

The model takes the volatile `pmemInfo` state, the header of the backing
store, and the outcome of the external mapping collaborator (`growPmemRegion`:
`some base` on success, `none` on failure) and returns the new state, the new
header, the returned address (`none` models the `nil` error return) and a
trace of the externally visible events (mapping, unmapping, header writes).
Go `int` arithmetic is carried in `Int` (`%` is Go's truncated `Int.tmod`);
the `uintptr` quantities computed after the validity checks are carried in
`Nat`, which agrees with the source for the checked domain `0 ≤ offset`,
`pmemInitSize ≤ size - offset`. -/

def initNotDone : Nat := 0

def initOngoing : Nat := 1

def initDone : Nat := 2

/-- The volatile `pmemInfo` bookkeeping structure (bitmap slices are carried
as their lengths). -/
structure PmemInfo where
  fname : String
  initState : Nat
  startAddr : Nat
  endAddr : Nat
  spanBitmapLen : Nat
  typeBitmapLen : Nat
  deriving DecidableEq

/-- The first 16 bytes of the header region of the backing store. -/
structure PmemHeader where
  magic : Int
  sizeField : Int
  deriving DecidableEq

inductive InitEvent where
  | mapRegion (npages reservePages : Nat)
  | unmap
  | writeSize (v : Int)
  | writeMagic (v : Int)
  deriving DecidableEq

structure InitResult where
  info : PmemInfo
  hdr : PmemHeader
  ret : Option Nat
  events : List InitEvent
  deriving DecidableEq

/-- The runtime's `round`: round `n` up to a multiple of the
power of two `a`. -/
def round (n a : Nat) : Nat := (n + a - 1) / a * a

def availPagesOf (size offset : Int) : Nat := (size - offset).toNat >>> pageShift

/-- Header section size: heap type bitmap + span bitmap + 16 fixed bytes. -/
def headerSizeOf (size offset : Int) : Nat :=
  availPagesOf size offset * heapBytesPerPage + availPagesOf size offset * logBytesPerPage
    + pmemHdrSize

def reservePagesOf (size offset : Int) : Nat :=
  round (offset.toNat + headerSizeOf size offset) pageSize >>> pageShift

def totalPagesOf (size : Int) : Nat := size.toNat >>> pageShift

/-- The tail of `PmallocInit` after the header check: compute the usable page
span, install the bitmap windows, set `endAddr`, mark the state done. -/
def pmallocFinish (info : PmemInfo) (hdr : PmemHeader) (base totalPages reservePages : Nat)
    (events : List InitEvent) : InitResult :=
  let usablePages := totalPages - reservePages
  ⟨{ info with
      spanBitmapLen := usablePages
      typeBitmapLen := (usablePages <<< pageShift) / 32
      endAddr := info.startAddr + (usablePages <<< pageShift) - 1
      initState := initDone },
    hdr, some base, events⟩

/-- `PmallocInit(fname, size, offset)`. -/
def PmallocInit (info : PmemInfo) (hdr : PmemHeader) (fname : String)
    (size offset : Int) (mapAddr : Option Nat) : InitResult :=
  if size - offset < pmemInitSize ∨ Int.tmod size pmemInitSize ≠ 0 then
    ⟨info, hdr, none, []⟩
  else if Int.tmod offset (pageSize : Int) ≠ 0 then
    ⟨info, hdr, none, []⟩
  else if info.initState ≠ initNotDone then
    ⟨info, hdr, none, []⟩
  else
    let info1 : PmemInfo := { info with initState := initOngoing, fname := fname }
    let reservePages := reservePagesOf size offset
    let totalPages := totalPagesOf size
    match mapAddr with
    | none =>
      ⟨{ info1 with initState := initNotDone }, hdr, none,
        [.mapRegion totalPages reservePages]⟩
    | some base =>
      let info2 : PmemInfo := { info1 with startAddr := base + (reservePages <<< pageShift) }
      if hdr.magic = pmemHdrMagic then
        if hdr.sizeField ≠ size then
          ⟨{ info2 with initState := initNotDone }, hdr, none,
            [.mapRegion totalPages reservePages, .unmap]⟩
        else
          pmallocFinish info2 hdr base totalPages reservePages
            [.mapRegion totalPages reservePages]
      else
        pmallocFinish info2 { magic := pmemHdrMagic, sizeField := size } base totalPages
          reservePages
          [.mapRegion totalPages reservePages, .writeSize size, .writeMagic pmemHdrMagic]

/-- Replay the header-write events of a (possibly crashed) prefix of an
`PmallocInit` run onto a header. -/
def applyHdrWrites (hdr : PmemHeader) : List InitEvent → PmemHeader
  | [] => hdr
  | InitEvent.writeSize v :: es => applyHdrWrites { hdr with sizeField := v } es
  | InitEvent.writeMagic v :: es => applyHdrWrites { hdr with magic := v } es
  | InitEvent.mapRegion _ _ :: es => applyHdrWrites hdr es
  | InitEvent.unmap :: es => applyHdrWrites hdr es

/-! ## Claim C5 -/

/-- C5: for every `(size, offset)` violating the preconditions — usable size
below 64 MiB, size not a multiple of 64 MiB, or offset not page-aligned —
`PmallocInit` returns an error having changed nothing: the volatile state and
the header are returned untouched and no mapping event occurs. -/
theorem PmallocInit_config_error (info : PmemInfo) (hdr : PmemHeader) (fname : String)
    (size offset : Int) (mapAddr : Option Nat)
    (h : size - offset < pmemInitSize ∨ Int.tmod size pmemInitSize ≠ 0 ∨
      Int.tmod offset (pageSize : Int) ≠ 0) :
    PmallocInit info hdr fname size offset mapAddr = ⟨info, hdr, none, []⟩ := by
  unfold PmallocInit
  rcases h with h | h | h
  · rw [if_pos (Or.inl h)]
  · rw [if_pos (Or.inr h)]
  · by_cases h1 : size - offset < pmemInitSize ∨ Int.tmod size pmemInitSize ≠ 0
    · rw [if_pos h1]
    · rw [if_neg h1, if_pos h]

def infoFresh : PmemInfo := ⟨"", initNotDone, 0, 0, 0, 0⟩

def hdrFresh : PmemHeader := ⟨0, 0⟩

theorem PmallocInit_config_error_witness :
    PmallocInit infoFresh hdrFresh "f" 1 0 none = ⟨infoFresh, hdrFresh, none, []⟩ :=
  PmallocInit_config_error infoFresh hdrFresh "f" 1 0 none (Or.inl (by decide))

/-! ## Claim C3 -/

/-- C3: on a first-time run (no magic sentinel in the header, mapping
succeeds), `PmallocInit` writes the region-size field strictly before the
magic sentinel: the event trace is map, write-size, write-magic, in that
order.  Consequently, replaying any crash prefix of the trace onto the
original header yields a header in which the magic is present only if the
size field is already correct, and every prefix that stops before the magic
write (the first three prefixes) is observed as a not-yet-completed first run
(magic absent) on the next restart. -/
theorem PmallocInit_size_before_magic (info : PmemInfo) (hdr : PmemHeader) (fname : String)
    (size offset : Int) (base : Nat)
    (h1 : ¬ (size - offset < pmemInitSize ∨ Int.tmod size pmemInitSize ≠ 0))
    (h2 : ¬ Int.tmod offset (pageSize : Int) ≠ 0)
    (h3 : info.initState = initNotDone)
    (hm : hdr.magic ≠ pmemHdrMagic) :
    (PmallocInit info hdr fname size offset (some base)).events =
      [.mapRegion (totalPagesOf size) (reservePagesOf size offset),
       .writeSize size, .writeMagic pmemHdrMagic] ∧
    (∀ i : Nat,
      (applyHdrWrites hdr
          ((PmallocInit info hdr fname size offset (some base)).events.take i)).magic
        = pmemHdrMagic →
      (applyHdrWrites hdr
          ((PmallocInit info hdr fname size offset (some base)).events.take i)).sizeField
        = size) ∧
    (∀ i : Nat, i ≤ 2 →
      (applyHdrWrites hdr
          ((PmallocInit info hdr fname size offset (some base)).events.take i)).magic
        ≠ pmemHdrMagic) := by
  have hev : (PmallocInit info hdr fname size offset (some base)).events =
      [.mapRegion (totalPagesOf size) (reservePagesOf size offset),
       .writeSize size, .writeMagic pmemHdrMagic] := by
    unfold PmallocInit
    rw [if_neg h1, if_neg h2, if_neg (by simp [h3])]
    simp only [if_neg hm]
    rfl
  refine ⟨hev, ?_, ?_⟩
  · intro i
    rw [hev]
    match i with
    | 0 => simpa [applyHdrWrites] using fun h => absurd h hm
    | 1 => simpa [applyHdrWrites] using fun h => absurd h hm
    | 2 => simp [applyHdrWrites]
    | n + 3 => simp [applyHdrWrites]
  · intro i hi
    rw [hev]
    match i with
    | 0 => simpa [applyHdrWrites] using hm
    | 1 => simpa [applyHdrWrites] using hm
    | 2 => simpa [applyHdrWrites] using hm
    | n + 3 => omega

theorem PmallocInit_size_before_magic_witness :
    (PmallocInit infoFresh hdrFresh "f" 67108864 0 (some 0)).events =
      [.mapRegion (totalPagesOf 67108864) (reservePagesOf 67108864 0),
       .writeSize 67108864, .writeMagic pmemHdrMagic] ∧
    (applyHdrWrites hdrFresh
        ((PmallocInit infoFresh hdrFresh "f" 67108864 0 (some 0)).events.take 2)).magic
      ≠ pmemHdrMagic :=
  ⟨(PmallocInit_size_before_magic infoFresh hdrFresh "f" 67108864 0 0
      (by decide) (by decide) (by decide) (by decide)).1,
   (PmallocInit_size_before_magic infoFresh hdrFresh "f" 67108864 0 0
      (by decide) (by decide) (by decide) (by decide)).2.2 2 (by decide)⟩

/-! ## Claim C4 -/

def infoC4 : PmemInfo := ⟨"old", initNotDone, 1, 0, 0, 0⟩

def hdrC4 : PmemHeader := ⟨pmemHdrMagic, 123⟩

/-- C4 counterexample: on a size-mismatched restart `PmallocInit` does unmap,
reset the state and return an error — but it does not leave all other state
unmutated: the volatile `fname` and `startAddr` fields, written earlier in the
call, keep their new values. -/
theorem PmallocInit_size_mismatch_mutates :
    (PmallocInit infoC4 hdrC4 "new" 67108864 0 (some 0)).ret = none ∧
    (PmallocInit infoC4 hdrC4 "new" 67108864 0 (some 0)).info.initState = initNotDone ∧
    (PmallocInit infoC4 hdrC4 "new" 67108864 0 (some 0)).events =
      [.mapRegion (totalPagesOf 67108864) (reservePagesOf 67108864 0), .unmap] ∧
    (PmallocInit infoC4 hdrC4 "new" 67108864 0 (some 0)).info.fname ≠ infoC4.fname ∧
    (PmallocInit infoC4 hdrC4 "new" 67108864 0 (some 0)).info.startAddr ≠ infoC4.startAddr := by
  refine ⟨by decide, by decide, by decide, by decide, by decide⟩

/-- C4 (amended): against a store carrying the magic but a mismatched recorded
size, `PmallocInit` unmaps the mapped region, resets the initialization state
to `Uninitialized` and returns an error, leaving the header and the remaining
volatile fields untouched — except that `fname` and `startAddr` keep the
values written to them earlier in the call. -/
theorem PmallocInit_size_mismatch (info : PmemInfo) (hdr : PmemHeader) (fname : String)
    (size offset : Int) (base : Nat)
    (h1 : ¬ (size - offset < pmemInitSize ∨ Int.tmod size pmemInitSize ≠ 0))
    (h2 : ¬ Int.tmod offset (pageSize : Int) ≠ 0)
    (h3 : info.initState = initNotDone)
    (hm : hdr.magic = pmemHdrMagic) (hsz : hdr.sizeField ≠ size) :
    PmallocInit info hdr fname size offset (some base) =
      ⟨⟨fname, initNotDone, base + (reservePagesOf size offset <<< pageShift),
          info.endAddr, info.spanBitmapLen, info.typeBitmapLen⟩,
        hdr, none,
        [.mapRegion (totalPagesOf size) (reservePagesOf size offset), .unmap]⟩ := by
  unfold PmallocInit
  rw [if_neg h1, if_neg h2, if_neg (by simp [h3])]
  simp only [if_pos hm, if_pos hsz]

theorem PmallocInit_size_mismatch_witness :
    PmallocInit infoC4 hdrC4 "new" 67108864 0 (some 0) =
      ⟨⟨"new", initNotDone, 0 + (reservePagesOf 67108864 0 <<< pageShift),
          infoC4.endAddr, infoC4.spanBitmapLen, infoC4.typeBitmapLen⟩,
        hdrC4, none,
        [.mapRegion (totalPagesOf 67108864) (reservePagesOf 67108864 0), .unmap]⟩ :=
  PmallocInit_size_mismatch infoC4 hdrC4 "new" 67108864 0 0
    (by decide) (by decide) (by decide) (by decide) (by decide)

/-! ## Claim C6 -/

/-- C6: a successful first-time `PmallocInit` with valid `(size, offset)`
returns the mapped base, and the usable range `[startAddr, endAddr]` (with
`endAddr` the inclusive last usable byte) has length exactly
`(totalPages - reservePages) * pageSize`, where `reservePages` is the
offset-plus-header region rounded up to a page boundary. -/
theorem PmallocInit_firstTime_range (info : PmemInfo) (hdr : PmemHeader) (fname : String)
    (size offset : Int) (base : Nat)
    (h1 : ¬ (size - offset < pmemInitSize ∨ Int.tmod size pmemInitSize ≠ 0))
    (h2 : ¬ Int.tmod offset (pageSize : Int) ≠ 0)
    (h3 : info.initState = initNotDone)
    (hm : hdr.magic ≠ pmemHdrMagic)
    (ho : 0 ≤ offset) :
    (PmallocInit info hdr fname size offset (some base)).ret = some base ∧
    (PmallocInit info hdr fname size offset (some base)).info.startAddr ≤
      (PmallocInit info hdr fname size offset (some base)).info.endAddr ∧
    (PmallocInit info hdr fname size offset (some base)).info.endAddr + 1
        - (PmallocInit info hdr fname size offset (some base)).info.startAddr
      = (totalPagesOf size - reservePagesOf size offset) * pageSize := by
  push_neg at h1 h2
  obtain ⟨hA, hB⟩ := h1
  have e1 : pmemInitSize = (67108864 : Int) := rfl
  have hsz0 : (0 : Int) ≤ size := by rw [e1] at hA; omega
  have hmodsz : size % (67108864 : Int) = 0 := by
    rw [e1] at hB
    rw [Int.tmod_eq_emod hsz0 (by norm_num)] at hB
    exact hB
  have hmodoff : offset % (8192 : Int) = 0 := by
    have : (pageSize : Int) = 8192 := rfl
    rw [this] at h2
    rw [Int.tmod_eq_emod ho (by norm_num)] at h2
    exact h2
  have hA' : (67108864 : Int) ≤ size - offset := by rw [e1] at hA; exact hA
  have hres : PmallocInit info hdr fname size offset (some base) =
      pmallocFinish
        ⟨fname, initOngoing, base + (reservePagesOf size offset <<< pageShift),
          info.endAddr, info.spanBitmapLen, info.typeBitmapLen⟩
        ⟨pmemHdrMagic, size⟩ base (totalPagesOf size) (reservePagesOf size offset)
        [.mapRegion (totalPagesOf size) (reservePagesOf size offset),
         .writeSize size, .writeMagic pmemHdrMagic] := by
    unfold PmallocInit
    rw [if_neg (by push_neg; exact ⟨hA, hB⟩), if_neg (by simpa using h2),
        if_neg (by simp [h3])]
    simp only [if_neg hm]
  have hup : 1 ≤ totalPagesOf size - reservePagesOf size offset := by
    unfold totalPagesOf reservePagesOf round headerSizeOf availPagesOf heapBytesPerPage
      logBytesPerPage pmemHdrSize pageSize pageShift
    simp only [Nat.shiftRight_eq_div_pow]
    norm_num
    omega
  rw [hres]
  simp only [pmallocFinish]
  have hps13 : pageShift = 13 := rfl
  have hpsz : pageSize = 8192 := rfl
  rw [hps13, hpsz]
  simp only [Nat.shiftLeft_eq]
  refine ⟨trivial, by omega, by omega⟩

theorem PmallocInit_firstTime_range_witness :
    (PmallocInit infoFresh hdrFresh "f" 67108864 0 (some 0)).ret = some 0 ∧
    (PmallocInit infoFresh hdrFresh "f" 67108864 0 (some 0)).info.startAddr ≤
      (PmallocInit infoFresh hdrFresh "f" 67108864 0 (some 0)).info.endAddr ∧
    (PmallocInit infoFresh hdrFresh "f" 67108864 0 (some 0)).info.endAddr + 1
        - (PmallocInit infoFresh hdrFresh "f" 67108864 0 (some 0)).info.startAddr
      = (totalPagesOf 67108864 - reservePagesOf 67108864 0) * pageSize :=
  PmallocInit_firstTime_range infoFresh hdrFresh "f" 67108864 0 0
    (by decide) (by decide) (by decide) (by decide) (by decide)

/-! ## Arena undo log -/

/-- One undo-log entry: offset from the arena base and the logged value. -/
structure logEntry where
  off : Nat
  val : Int
  deriving DecidableEq

/-- The undo-log-relevant state of a persistent arena: the arena header's own
address (`unsafe.Pointer(pa)`), the arena size, the pending-entry count, the
log slots and the arena's memory (absolute address → stored Go `int`). -/
structure pArenaUndo where
  paAddr : Nat
  size : Nat
  numLogEntries : Nat
  logs : Nat → logEntry
  mem : Nat → Int

/-- `pa.logEntry(addr)`: capture the value currently stored at `addr` (which
must lie inside the arena, with at most `maxLogEntries` entries outstanding)
before the caller mutates it.  `none` models `throw`. -/
def logEntryOp (pa : pArenaUndo) (addr : Nat) : Option pArenaUndo :=
  if addr - pa.paAddr ≥ pa.size then none
  else if pa.numLogEntries = maxLogEntries then none
  else some { pa with
    logs := Function.update pa.logs pa.numLogEntries ⟨addr - pa.paAddr, pa.mem addr⟩
    numLogEntries := pa.numLogEntries + 1 }

/-- The write-back loop of `revertLog`: copy entries `0 .. n-1` back to their
target addresses, in index order. -/
def revertLoop (memv : Nat → Int) (logs : Nat → logEntry) (paAddr : Nat) : Nat → (Nat → Int)
  | 0 => memv
  | n + 1 =>
    Function.update (revertLoop memv logs paAddr n) (paAddr + (logs n).off) (logs n).val

/-- `pa.revertLog()`: copy every logged previous value back to its target and
reset the pending-entry count to 0. -/
def revertLogOp (pa : pArenaUndo) : pArenaUndo :=
  if pa.numLogEntries = 0 then pa
  else { pa with
    mem := revertLoop pa.mem pa.logs pa.paAddr pa.numLogEntries
    numLogEntries := 0 }

/-- `pa.resetLog()`: discard all entries without copying any data. -/
def resetLogOp (pa : pArenaUndo) : pArenaUndo := { pa with numLogEntries := 0 }

/-- `pa.commitLog()`: flush the already-mutated targets (no memory rewrite in
the model) and reset the pending-entry count to 0. -/
def commitLogOp (pa : pArenaUndo) : pArenaUndo := { pa with numLogEntries := 0 }

/-! ## Claim C7 -/

/-- C7: after `logEntry(addr)` captures the value stored at an in-arena
address `addr`, an arbitrary mutation of the value at `addr` followed by
`revertLog` restores the value at `addr` to the captured one and resets the
arena's pending-entry count to 0. -/
theorem logEntry_mutate_revert (pa : pArenaUndo) (addr : Nat) (w : Int) (pa1 : pArenaUndo)
    (hin : pa.paAddr ≤ addr)
    (hoff : addr - pa.paAddr < pa.size)
    (hcap : pa.numLogEntries ≠ maxLogEntries)
    (hlog : logEntryOp pa addr = some pa1) :
    (revertLogOp { pa1 with mem := Function.update pa1.mem addr w }).mem addr = pa.mem addr ∧
    (revertLogOp { pa1 with mem := Function.update pa1.mem addr w }).numLogEntries = 0 := by
  unfold logEntryOp at hlog
  rw [if_neg (by omega), if_neg hcap] at hlog
  obtain rfl := (Option.some.injEq _ _).mp hlog |>.symm
  constructor
  · unfold revertLogOp
    rw [if_neg (Nat.succ_ne_zero _)]
    show revertLoop (Function.update pa.mem addr w)
        (Function.update pa.logs pa.numLogEntries ⟨addr - pa.paAddr, pa.mem addr⟩)
        pa.paAddr (pa.numLogEntries + 1) addr = pa.mem addr
    rw [revertLoop]
    rw [Function.update_same]
    have haddr : pa.paAddr + (addr - pa.paAddr) = addr := by omega
    rw [haddr, Function.update_same]
  · unfold revertLogOp
    rw [if_neg (Nat.succ_ne_zero _)]

def paU0 : pArenaUndo := ⟨0, 100, 0, fun _ => ⟨0, 0⟩, fun _ => 5⟩

def paU1 : pArenaUndo := ⟨0, 100, 1, Function.update (fun _ => ⟨0, 0⟩) 0 ⟨7, 5⟩, fun _ => 5⟩

theorem logEntry_mutate_revert_witness :
    (revertLogOp { paU1 with mem := Function.update paU1.mem 7 42 }).mem 7 = paU0.mem 7 ∧
    (revertLogOp { paU1 with mem := Function.update paU1.mem 7 42 }).numLogEntries = 0 :=
  logEntry_mutate_revert paU0 7 42 paU1 (by decide) (by decide) (by decide) rfl

/-! ## Heap pointer-bitmap log -/

/-- The fields of the Go `_type` descriptor consulted by `logHeapBits`. -/
structure GoType where
  kind : Nat
  size : Nat
  ptrdata : Nat
  gcdata : List Nat
  deriving DecidableEq

/-- One optimized-mode type-descriptor record as laid out at the span's log
position: the 8-byte type index, then `kind` (at byte offset `intSize`),
`size` (at 16), the pointer-data length (at 24) and the copied pointer-bitmap
bytes (from 32). -/
structure TypeDesc where
  typIndex : Int
  kind : Nat
  size : Nat
  ptrdata : Nat
  gcdata : List Nat
  deriving DecidableEq

/-- One store performed by the heap-bits logger, tagged with its target log
address. -/
inductive HBWrite where
  | typIndexW (a : Nat) (v : Int)
  | kindW (a : Nat) (v : Nat)
  | sizeW (a : Nat) (v : Nat)
  | ptrdataW (a : Nat) (v : Nat)
  | gcdataW (a : Nat) (bs : List Nat)
  | directW (a : Nat) (bs : List Nat)
  deriving DecidableEq

/-- The persistent type-bitmap log region: descriptor records (optimized mode)
and raw bitmap bytes (direct mode), each indexed by the computed log
address. -/
structure HeapBitsLog where
  desc : Nat → TypeDesc
  bytes : Nat → Nat

/-- `pmemHeapBitsAddr(x, pa)`: the address in the persistent type-bitmap log
corresponding to virtual address `x` (the variant computing the arena start
from the arena header address, with the first arena additionally offset by the
common region header). -/
def pmemHeapBitsAddr (x : Nat) (pa : pArena) : Nat :=
  let off := if pa.fileOffset = 0 then pmemHeaderSize else 0
  let arenaStart := pa.paAddr - off + pa.layout.1
  pa.paAddr + pArenaHeaderSize + (x - arenaStart) / 32

/-- Number of pointer-bitmap bytes copied in optimized mode:
`numHeapTypeBits = (ptrdata + 7) / 8` bits, packed into
`(numHeapTypeBits + 7) / 8` bytes. -/
def numHeapTypeBytesOf (typ : GoType) : Nat := ((typ.ptrdata + 7) / 8 + 7) / 8

/-- Write a list of bytes at consecutive addresses (`memmove`). -/
def writeBytes (m : Nat → Nat) (a : Nat) : List Nat → (Nat → Nat)
  | [] => m
  | b :: bs => writeBytes (Function.update m a b) (a + 1) bs

/-- `logHeapBits(addr, startByte, endByte, typ)`: log the heap type bits for
the allocation at `addr` (its per-granule bitmap bytes are `bits`).  A span
carrying a non-zero `typIndex` takes the optimized path: one descriptor record
at the span's log position, whose type-index word is rewritten only when it
differs; otherwise the caller's bitmap bytes are copied to the address derived
from `addr` (direct mode).  `none` models `throw` for a non-persistent span. -/
def logHeapBits (st : HeapBitsLog) (s : mspan) (addr : Nat) (bits : List Nat)
    (typ : GoType) : Option (HeapBitsLog × List HBWrite) :=
  if s.memtype ≠ isPersistent then none
  else if s.typIndex != 0 then
    let a := pmemHeapBitsAddr s.base s.pArena
    let d := st.desc a
    let ev1 := if d.typIndex ≠ s.typIndex then [HBWrite.typIndexW a s.typIndex] else []
    let d1 := if d.typIndex ≠ s.typIndex then { d with typIndex := s.typIndex } else d
    let gcb := typ.gcdata.take (numHeapTypeBytesOf typ)
    let d2 : TypeDesc := { d1 with
      kind := typ.kind
      size := typ.size
      ptrdata := typ.ptrdata
      gcdata := gcb }
    some ({ st with desc := Function.update st.desc a d2 },
      ev1 ++ [HBWrite.kindW a typ.kind, HBWrite.sizeW a typ.size,
              HBWrite.ptrdataW a typ.ptrdata, HBWrite.gcdataW a gcb])
  else
    let a := pmemHeapBitsAddr addr s.pArena
    some ({ st with bytes := writeBytes st.bytes a bits }, [HBWrite.directW a bits])

/-- Log the heap bits of several objects of one span in sequence (one call
per object address), accumulating the performed stores. -/
def logHeapBitsSeq (st : HeapBitsLog) (s : mspan) (bits : List Nat) (typ : GoType) :
    List Nat → Option (HeapBitsLog × List HBWrite)
  | [] => some (st, [])
  | a :: as =>
    match logHeapBits st s a bits typ with
    | none => none
    | some (st1, evs) =>
      match logHeapBitsSeq st1 s bits typ as with
      | none => none
      | some (st2, evs2) => some (st2, evs ++ evs2)

def countTypIndexWrites (evs : List HBWrite) : Nat :=
  evs.countP fun e =>
    match e with
    | HBWrite.typIndexW _ _ => true
    | _ => false

/-! ## Claim C9 (`clearHeapBits`, from `src/src/runtime/pmemLog.go`) -/

/-- Zero-fill `n` consecutive bytes starting at `a` (`memclrNoHeapPointers`). -/
def zeroRange (m : Nat → Nat) (a n : Nat) : Nat → Nat :=
  fun x => if a ≤ x ∧ x < a + n then 0 else m x

namespace PmemLogGo

/-- The `pmemHeapBitsAddr` variant of `src/src/runtime/pmemLog.go`, computing
the type-bitmap window from the arena's map address and its `offset` field. -/
def pmemHeapBitsAddr (x : Nat) (pa : pArena) : Nat :=
  let typeBitsAddr := pa.mapAddr + pa.offset + pArenaHeaderSize
  let arenaStart := pa.mapAddr + pa.layout.1
  typeBitsAddr + (x - arenaStart) / 32

/-- `clearHeapBits(addr, size)`: zero-fill the type-bitmap log bytes for the
reused allocation at `addr` occupying `size` bytes and flush them.  Returns
the new log memory and the number of bytes cleared and flushed; `none` models
`throw` for a non-persistent span. -/
def clearHeapBits (st : Nat → Nat) (s : mspan) (addr size : Nat) :
    Option ((Nat → Nat) × Nat) :=
  if s.memtype ≠ isPersistent then none
  else
    let a := pmemHeapBitsAddr addr s.pArena
    let n := size / bytesPerBitmapByte
    some (zeroRange st a n, n)

end PmemLogGo

def spanC9 : mspan := ⟨0, 32, 4, 0, isPersistent, 0, pa0⟩

/-- C9 counterexample: `clearHeapBits` performs no multiple-of-32 validation.
Called with `size = 33` — not a multiple of 32 — on a persistent span it does
not fail: it succeeds, clearing and flushing `33 / 32 = 1` byte. -/
theorem clearHeapBits_no_size_check :
    (33 : Nat) % bytesPerBitmapByte ≠ 0 ∧
    (PmemLogGo.clearHeapBits (fun _ => 7) spanC9 spanC9.base 33).isSome = true ∧
    (PmemLogGo.clearHeapBits (fun _ => 7) spanC9 spanC9.base 33).map (fun p => p.2)
      = some 1 := by
  refine ⟨by decide, by decide, by decide⟩

/-- C9 (amended): `clearHeapBits(addr, size)` on a persistent span never
checks `size`: for every `size` (the multiple-of-32 requirement is only a
documented precondition) it zero-fills exactly `size / 32` bytes of the
persistent type-bitmap log for `addr` — leaving every byte outside that range
untouched — and flushes exactly those `size / 32` bytes. -/
theorem clearHeapBits_clears (st : Nat → Nat) (s : mspan) (addr size : Nat)
    (hp : s.memtype = isPersistent) :
    PmemLogGo.clearHeapBits st s addr size =
      some (zeroRange st (PmemLogGo.pmemHeapBitsAddr addr s.pArena)
              (size / bytesPerBitmapByte),
            size / bytesPerBitmapByte) ∧
    (∀ i : Nat, i < size / bytesPerBitmapByte →
      zeroRange st (PmemLogGo.pmemHeapBitsAddr addr s.pArena) (size / bytesPerBitmapByte)
        (PmemLogGo.pmemHeapBitsAddr addr s.pArena + i) = 0) ∧
    (∀ x : Nat, x < PmemLogGo.pmemHeapBitsAddr addr s.pArena ∨
        PmemLogGo.pmemHeapBitsAddr addr s.pArena + size / bytesPerBitmapByte ≤ x →
      zeroRange st (PmemLogGo.pmemHeapBitsAddr addr s.pArena) (size / bytesPerBitmapByte) x
        = st x) := by
  refine ⟨?_, ?_, ?_⟩
  · unfold PmemLogGo.clearHeapBits
    rw [if_neg (by simp [hp])]
  · intro i hi
    unfold zeroRange
    rw [if_pos (by omega)]
  · intro x hx
    unfold zeroRange
    rw [if_neg (by omega)]

theorem clearHeapBits_clears_witness :
    PmemLogGo.clearHeapBits (fun _ => 7) spanC9 spanC9.base 64 =
      some (zeroRange (fun _ => 7) (PmemLogGo.pmemHeapBitsAddr spanC9.base spanC9.pArena)
              (64 / bytesPerBitmapByte),
            64 / bytesPerBitmapByte) ∧
    (∀ i : Nat, i < 64 / bytesPerBitmapByte →
      zeroRange (fun _ => 7) (PmemLogGo.pmemHeapBitsAddr spanC9.base spanC9.pArena)
        (64 / bytesPerBitmapByte)
        (PmemLogGo.pmemHeapBitsAddr spanC9.base spanC9.pArena + i) = 0) ∧
    (∀ x : Nat, x < PmemLogGo.pmemHeapBitsAddr spanC9.base spanC9.pArena ∨
        PmemLogGo.pmemHeapBitsAddr spanC9.base spanC9.pArena + 64 / bytesPerBitmapByte ≤ x →
      zeroRange (fun _ => 7) (PmemLogGo.pmemHeapBitsAddr spanC9.base spanC9.pArena)
        (64 / bytesPerBitmapByte) x = (fun _ => 7 : Nat → Nat) x) :=
  clearHeapBits_clears (fun _ => 7) spanC9 spanC9.base 64 (by decide)

/-! ## Claim C8 -/

/-- The descriptor record that optimized-mode logging leaves at the span's
log position. -/
def descRecord (s : mspan) (typ : GoType) : TypeDesc :=
  ⟨s.typIndex, typ.kind, typ.size, typ.ptrdata, typ.gcdata.take (numHeapTypeBytesOf typ)⟩

def hbLog0 : HeapBitsLog := ⟨fun _ => ⟨0, 0, 0, 0, []⟩, fun _ => 0⟩

def spanC8 : mspan := ⟨0, 32, 4, 0, isPersistent, 7, pa0⟩

def typC8 : GoType := ⟨1, 16, 8, [3]⟩

/-- C8 counterexample: in optimized mode only the type-index word write is
skipped on a repeat call — the remaining descriptor stores are performed
again.  Logging the same span twice performs 9 stores where one call performs
5, so the descriptor is not written exactly once regardless of N. -/
theorem logHeapBits_opt_second_call_writes :
    (logHeapBitsSeq hbLog0 spanC8 [] typC8 [spanC8.base]).map (fun p => p.2.length)
      = some 5 ∧
    (logHeapBitsSeq hbLog0 spanC8 [] typC8 [spanC8.base, spanC8.base]).map
        (fun p => p.2.length) = some 9 ∧
    (9 : Nat) ≠ 5 := by
  refine ⟨by decide, by decide, by decide⟩

/-- The log state left by a completed optimized-mode call: the descriptor
record installed at the span's log position. -/
def updatedLog (st : HeapBitsLog) (s : mspan) (typ : GoType) : HeapBitsLog :=
  { st with
    desc := Function.update st.desc (pmemHeapBitsAddr s.base s.pArena) (descRecord s typ) }

/-- A first optimized-mode call on a slot whose stored type index differs:
every descriptor field is written, the type-index word included. -/
theorem logHeapBits_opt_first (st : HeapBitsLog) (s : mspan) (addr : Nat) (bits : List Nat)
    (typ : GoType) (hp : s.memtype = isPersistent) (ht : s.typIndex ≠ 0)
    (hmis : (st.desc (pmemHeapBitsAddr s.base s.pArena)).typIndex ≠ s.typIndex) :
    logHeapBits st s addr bits typ =
      some (updatedLog st s typ,
        [HBWrite.typIndexW (pmemHeapBitsAddr s.base s.pArena) s.typIndex,
         HBWrite.kindW (pmemHeapBitsAddr s.base s.pArena) typ.kind,
         HBWrite.sizeW (pmemHeapBitsAddr s.base s.pArena) typ.size,
         HBWrite.ptrdataW (pmemHeapBitsAddr s.base s.pArena) typ.ptrdata,
         HBWrite.gcdataW (pmemHeapBitsAddr s.base s.pArena)
           (typ.gcdata.take (numHeapTypeBytesOf typ))]) := by
  unfold logHeapBits updatedLog
  rw [if_neg (by simp [hp]), if_pos (by simp [ht])]
  simp only [if_pos hmis]
  rfl

/-- A repeat optimized-mode call on a slot already holding the descriptor:
the type-index store is skipped, the other descriptor fields are rewritten
with identical values, and the log state is unchanged. -/
theorem logHeapBits_opt_again (st : HeapBitsLog) (s : mspan) (addr : Nat) (bits : List Nat)
    (typ : GoType) (hp : s.memtype = isPersistent) (ht : s.typIndex ≠ 0)
    (hfix : st.desc (pmemHeapBitsAddr s.base s.pArena) = descRecord s typ) :
    logHeapBits st s addr bits typ =
      some (st,
        [HBWrite.kindW (pmemHeapBitsAddr s.base s.pArena) typ.kind,
         HBWrite.sizeW (pmemHeapBitsAddr s.base s.pArena) typ.size,
         HBWrite.ptrdataW (pmemHeapBitsAddr s.base s.pArena) typ.ptrdata,
         HBWrite.gcdataW (pmemHeapBitsAddr s.base s.pArena)
           (typ.gcdata.take (numHeapTypeBytesOf typ))]) := by
  unfold logHeapBits
  rw [if_neg (by simp [hp]), if_pos (by simp [ht])]
  have hmatch : ¬ ((st.desc (pmemHeapBitsAddr s.base s.pArena)).typIndex ≠ s.typIndex) := by
    rw [hfix]
    simp [descRecord]
  simp only [if_neg hmatch]
  have hd2 : (TypeDesc.mk (st.desc (pmemHeapBitsAddr s.base s.pArena)).typIndex typ.kind
        typ.size typ.ptrdata (typ.gcdata.take (numHeapTypeBytesOf typ)))
      = st.desc (pmemHeapBitsAddr s.base s.pArena) := by
    rw [hfix]
    rfl
  rw [hd2, Function.update_eq_self]
  rfl

/-- Iterating optimized-mode logging from the post-first-call state changes
nothing and never rewrites the type-index word. -/
theorem logHeapBitsSeq_fixed (s : mspan) (bits : List Nat) (typ : GoType)
    (hp : s.memtype = isPersistent) (ht : s.typIndex ≠ 0) :
    ∀ (as : List Nat) (st : HeapBitsLog),
      st.desc (pmemHeapBitsAddr s.base s.pArena) = descRecord s typ →
      ∃ evs, logHeapBitsSeq st s bits typ as = some (st, evs) ∧
        countTypIndexWrites evs = 0 := by
  intro as
  induction as with
  | nil => exact fun st hfix => ⟨[], rfl, rfl⟩
  | cons a as ih =>
    intro st hfix
    obtain ⟨evs, h2, h3⟩ := ih st hfix
    have h1 := logHeapBits_opt_again st s a bits typ hp ht hfix
    refine ⟨[HBWrite.kindW (pmemHeapBitsAddr s.base s.pArena) typ.kind,
         HBWrite.sizeW (pmemHeapBitsAddr s.base s.pArena) typ.size,
         HBWrite.ptrdataW (pmemHeapBitsAddr s.base s.pArena) typ.ptrdata,
         HBWrite.gcdataW (pmemHeapBitsAddr s.base s.pArena)
           (typ.gcdata.take (numHeapTypeBytesOf typ))] ++ evs, ?_, ?_⟩
    · simp only [logHeapBitsSeq, h1, h2]
    · simp [countTypIndexWrites, List.countP_append] at h3 ⊢
      exact h3

/-- C8 (amended): in optimized mode (non-zero span `typIndex`), logging N ≥ 1
objects of one span writes a single descriptor record at the span's log
position: the type-index word is stored exactly once across the N calls (the
store is skipped whenever the stored index already matches), the remaining
descriptor fields are rewritten with identical values on repeat calls, and
the resulting log state after N calls equals the state after the first
call. -/
theorem logHeapBits_opt_once (st : HeapBitsLog) (s : mspan) (a : Nat) (as : List Nat)
    (bits : List Nat) (typ : GoType)
    (hp : s.memtype = isPersistent) (ht : s.typIndex ≠ 0)
    (hmis : (st.desc (pmemHeapBitsAddr s.base s.pArena)).typIndex ≠ s.typIndex) :
    (logHeapBitsSeq st s bits typ (a :: as)).map
        (fun p => p.1.desc (pmemHeapBitsAddr s.base s.pArena)) = some (descRecord s typ) ∧
    (logHeapBitsSeq st s bits typ (a :: as)).map (fun p => countTypIndexWrites p.2)
      = some 1 ∧
    (logHeapBitsSeq st s bits typ (a :: as)).map (fun p => p.1)
      = (logHeapBits st s a bits typ).map (fun p => p.1) := by
  have h1 := logHeapBits_opt_first st s a bits typ hp ht hmis
  have hfix : (updatedLog st s typ).desc (pmemHeapBitsAddr s.base s.pArena)
      = descRecord s typ :=
    Function.update_same _ _ _
  obtain ⟨evs, h2, h3⟩ := logHeapBitsSeq_fixed s bits typ hp ht as
    (updatedLog st s typ) hfix
  have hseq : logHeapBitsSeq st s bits typ (a :: as)
      = some (updatedLog st s typ,
          [HBWrite.typIndexW (pmemHeapBitsAddr s.base s.pArena) s.typIndex,
           HBWrite.kindW (pmemHeapBitsAddr s.base s.pArena) typ.kind,
           HBWrite.sizeW (pmemHeapBitsAddr s.base s.pArena) typ.size,
           HBWrite.ptrdataW (pmemHeapBitsAddr s.base s.pArena) typ.ptrdata,
           HBWrite.gcdataW (pmemHeapBitsAddr s.base s.pArena)
             (typ.gcdata.take (numHeapTypeBytesOf typ))] ++ evs) := by
    simp only [logHeapBitsSeq, h1, h2]
  rw [hseq, h1]
  refine ⟨?_, ?_, rfl⟩
  · simp only [Option.map_some']
    rw [hfix]
  · simp only [Option.map_some']
    refine congrArg some ?_
    unfold countTypIndexWrites at h3 ⊢
    simp [List.countP_append, List.countP_cons, h3]

theorem logHeapBits_opt_once_witness :
    (logHeapBitsSeq hbLog0 spanC8 [] typC8 [spanC8.base, spanC8.base]).map
        (fun p => p.1.desc (pmemHeapBitsAddr spanC8.base spanC8.pArena))
      = some (descRecord spanC8 typC8) ∧
    (logHeapBitsSeq hbLog0 spanC8 [] typC8 [spanC8.base, spanC8.base]).map
        (fun p => countTypIndexWrites p.2) = some 1 ∧
    (logHeapBitsSeq hbLog0 spanC8 [] typC8 [spanC8.base, spanC8.base]).map (fun p => p.1)
      = (logHeapBits hbLog0 spanC8 spanC8.base [] typC8).map (fun p => p.1) :=
  logHeapBits_opt_once hbLog0 spanC8 spanC8.base [spanC8.base] [] typC8
    (by decide) (by decide) (by decide)

end GoPmem
